import Mathlib

/-!
Shallow embedding of the EPG aggregation script `src/my.py`.

XML element trees are modelled by their pipeline-relevant content:
a `channel` element is its `id` attribute plus the text of its
`display-name` children (absent text modelled as `""`, matching Python
falsiness of both `None` and `""` in the `if dn.text` filters);
a `programme` element is its `channel` and `start` attributes.
Python dicts are association lists with Python dict update semantics
(replace in place on key collision, append otherwise).
`datetime` values are minutes since year 1 (a proleptic-Gregorian
linearisation, order-isomorphic to `datetime` comparison).
Raised exceptions are `Except.error`; network attempts are an oracle
`Nat → Option String` giving the outcome of each attempt.
-/

namespace MyEpg

/-- A `channel` element: `id` attribute and `display-name` child texts. -/
structure Channel where
  id : String
  displayNames : List String
deriving DecidableEq

/-- A `programme` element: `channel` and `start` attributes. -/
structure Programme where
  channel : String
  start : String
deriving DecidableEq

/-- A parsed XMLTV document: its `channel` and `programme` elements. -/
structure SourceDoc where
  channels : List Channel
  programmes : List Programme
deriving DecidableEq

/-- The combined `tv` element built by `create_combined_epg` (lines 100-114). -/
structure CombinedEpg where
  generatorInfoName : String
  generatorInfoUrl : String
  channels : List (String × Channel)
  programmes : List Programme
deriving DecidableEq

/-- Contiguous-occurrence test on lists, embedding the Python `in` test. -/
def occursIn [BEq α] (needle : List α) : List α → Bool
  | [] => needle.isEmpty
  | a :: rest => needle.isPrefixOf (a :: rest) || occursIn needle rest

/-- Python `needle in hay` for strings. -/
def strContains (hay needle : String) : Bool :=
  occursIn needle.toList hay.toList

/-- Python `s.lower()`: character-wise lowercasing (ASCII, as `Char.toLower`).
Defined over the character list so it evaluates by kernel reduction. -/
def lowerStr (s : String) : String :=
  ⟨s.toList.map Char.toLower⟩

/-- Python dict assignment `d[k] = v`: replace in place if the key exists,
append otherwise. -/
def dictInsert : List (String × Channel) → String → Channel → List (String × Channel)
  | [], k, v => [(k, v)]
  | p :: rest, k, v => if p.1 = k then (k, v) :: rest else p :: dictInsert rest k v

/-- Python dict lookup `d[k]` (as an `Option`). -/
def dictLookup : List (String × Channel) → String → Option Channel
  | [], _ => none
  | p :: rest, k => if p.1 = k then some p.2 else dictLookup rest k

/-- Python `k in d` (key containment). -/
def dictMember : List (String × Channel) → String → Bool
  | [], _ => false
  | p :: rest, k => p.1 == k || dictMember rest k

/-- Python `{**a, **b}`: start from `a`, assign every entry of `b` in order. -/
def dictMerge (a b : List (String × Channel)) : List (String × Channel) :=
  b.foldl (fun d p => dictInsert d p.1 p.2) a

/-- Gregorian leap-year test (as used by `datetime`). -/
def isLeapYear (y : Nat) : Bool :=
  (y % 4 == 0 && y % 100 != 0) || y % 400 == 0

/-- Days in a month of the Gregorian calendar. -/
def daysInMonth (y m : Nat) : Nat :=
  if m = 2 then (if isLeapYear y then 29 else 28)
  else if m = 4 ∨ m = 6 ∨ m = 9 ∨ m = 11 then 30
  else 31

/-- Days in year `y` before the first of month `m`. -/
def daysBeforeMonth (y m : Nat) : Nat :=
  (List.range (m - 1)).foldl (fun acc i => acc + daysInMonth y (i + 1)) 0

/-- Days before January 1 of year `y`, counting from year 1. -/
def daysBeforeYear (y : Nat) : Nat :=
  (y - 1) * 365 + (y - 1) / 4 - (y - 1) / 100 + (y - 1) / 400

/-- Linearisation of a `datetime` to minutes since year 1; order-isomorphic
to `datetime` comparison, so `now <= start_dt <= now + timedelta(days=7)`
becomes a `Nat` interval test. -/
def toMinutes (y mo d h mi : Nat) : Nat :=
  ((daysBeforeYear y + daysBeforeMonth y mo + (d - 1)) * 24 + h) * 60 + mi

/-- Decimal value of a digit string. -/
def digitsToNat (cs : List Char) : Nat :=
  cs.foldl (fun acc c => acc * 10 + (c.toNat - 48)) 0

/-- The model of `datetime.strptime(start_str[:12], %Y%m%d%H%M)` (line 70):
take the first 12 characters, require 12 digits with in-range calendar
fields (`strptime` raises `ValueError` otherwise, modelled as `none`), and
return the parsed instant in minutes. -/
def parseStart12 (s : String) : Option Nat :=
  let cs := s.toList.take 12
  if cs.length == 12 && cs.all Char.isDigit then
    let y := digitsToNat (cs.take 4)
    let mo := digitsToNat ((cs.drop 4).take 2)
    let d := digitsToNat ((cs.drop 6).take 2)
    let h := digitsToNat ((cs.drop 8).take 2)
    let mi := digitsToNat ((cs.drop 10).take 2)
    if 1 ≤ y ∧ 1 ≤ mo ∧ mo ≤ 12 ∧ 1 ≤ d ∧ d ≤ daysInMonth y mo ∧ h ≤ 23 ∧ mi ≤ 59 then
      some (toMinutes y mo d h mi)
    else none
  else none

/-- The non-empty display-name texts of a channel: the
`[dn.text for dn in channel.findall(...) if dn.text]` comprehension
(line 54), with absent text modelled as `""`. -/
def displayTexts (c : Channel) : List String :=
  c.displayNames.filter (fun s => s != "")

/-- The keyword test of lines 55-59: the channel is selected iff some
keyword occurs, case-insensitively, in some display name. -/
def channelMatches (c : Channel) (channel_keywords : List String) : Bool :=
  channel_keywords.any (fun kw =>
    (displayTexts c).any (fun name => strContains (lowerStr name) (lowerStr kw)))

/-- The `channel_keywords is None` loop (lines 50-51): insert every channel
under its `id`. -/
def selectAllAux : List (String × Channel) → List Channel → List (String × Channel)
  | acc, [] => acc
  | acc, c :: rest => selectAllAux (dictInsert acc c.id c) rest

/-- The keyword loop (lines 53-59): insert a channel under its `id` iff it
matches some keyword. -/
def selectByKeywordsAux (ks : List String) :
    List (String × Channel) → List Channel → List (String × Channel)
  | acc, [] => acc
  | acc, c :: rest =>
    if channelMatches c ks then selectByKeywordsAux ks (dictInsert acc c.id c) rest
    else selectByKeywordsAux ks acc rest

/-- Channel selection of `extract_channels_and_programmes` (lines 47-59). -/
def selectChannels (doc : List Channel) (channel_keywords : Option (List String)) :
    List (String × Channel) :=
  match channel_keywords with
  | none => selectAllAux [] doc
  | some ks => selectByKeywordsAux ks [] doc

/-- Programme selection of `extract_channels_and_programmes` (lines 63-74):
keep a programme whose channel is a selected key when its start parses into
`[now, now + 7 days]`; keep it unconditionally when `start` is shorter than
12 characters; a 12-plus-character `start` that fails `strptime` raises
(`Except.error`). `10080` is 7 days in minutes. -/
def extractProgrammes (chans : List (String × Channel)) (now : Nat) :
    List Programme → Except String (List Programme)
  | [] => Except.ok []
  | p :: rest =>
    if dictMember chans p.channel then
      if 12 ≤ p.start.length then
        match parseStart12 p.start with
        | some t =>
          match extractProgrammes chans now rest with
          | Except.ok r =>
            Except.ok (if now ≤ t ∧ t ≤ now + 10080 then p :: r else r)
          | Except.error e => Except.error e
        | none => Except.error "time data does not match format"
      else
        match extractProgrammes chans now rest with
        | Except.ok r => Except.ok (p :: r)
        | Except.error e => Except.error e
    else extractProgrammes chans now rest

/-- The exclusion test of `filter_in_channels` (lines 84-90): some lowered
display name contains some lowered excluded language as a substring. -/
def channelExcluded (ch : Channel) (exclude_languages : List String) : Bool :=
  ((displayTexts ch).map lowerStr).any (fun name =>
    exclude_languages.any (fun lang => strContains name (lowerStr lang)))

/-- `filter_in_channels` (lines 79-98): keep the entries whose channel is
not excluded, preserving dict order. -/
def filter_in_channels (channels_dict : List (String × Channel))
    (exclude_languages : List String) : List (String × Channel) :=
  channels_dict.filter (fun p => !channelExcluded p.2 exclude_languages)

/-- The `excluded_count` reported by `filter_in_channels` (lines 82, 95, 97). -/
def excludedCount (channels_dict : List (String × Channel))
    (exclude_languages : List String) : Nat :=
  (channels_dict.filter (fun p => channelExcluded p.2 exclude_languages)).length

/-- `create_combined_epg` (lines 100-114): the `tv` element with generator
metadata, the channels, then the programmes. -/
def create_combined_epg (channels_dict : List (String × Channel))
    (all_programmes : List Programme) : CombinedEpg :=
  { generatorInfoName := "Custom Sports EPG Fetcher"
    generatorInfoUrl := "https://example.com"
    channels := channels_dict
    programmes := all_programmes }

/-- `UK_KEYWORDS` (line 122). -/
def UK_KEYWORDS : List String := ["sky", "tnt sports", "skysp"]

/-- `AU_KEYWORDS` (line 123). -/
def AU_KEYWORDS : List String := ["fox", "channel 7"]

/-- `IN_KEYWORDS` (line 124). -/
def IN_KEYWORDS : Option (List String) := none

/-- `EXCLUDE_LANGUAGES` (line 127). -/
def EXCLUDE_LANGUAGES : List String :=
  ["tamil", "telugu", "oriya", "gujarati", "kannada", "malayalam",
   "bhojpuri", "punjabi", "marathi"]

/-- The channel combination `{**uk, **au, **filtered_in}` of line 152. -/
def combineChannels (uk au fin : List (String × Channel)) :
    List (String × Channel) :=
  dictMerge (dictMerge uk au) fin

/-- Extract step for one source: select channels by keyword policy and extract
its programmes; a `strptime` failure propagates as an error. -/
def processSource (doc : SourceDoc) (kws : Option (List String)) (now : Nat) :
    Except String (List (String × Channel) × List Programme) :=
  match extractProgrammes (selectChannels doc.channels kws) now doc.programmes with
  | Except.ok ps => Except.ok (selectChannels doc.channels kws, ps)
  | Except.error e => Except.error e

/-- The module-level pipeline (lines 129-187). Each source argument is the
outcome of its fetch-and-parse step (`Except.error` = a raised exception).
The single `try`/`except` block means any error short-circuits the whole
run: the handler logs and no artifact is written, modelled as the pipeline
returning that `Except.error`. A returned `Except.ok` document is the one
serialized and written to `epg.xml.gz`. -/
def runPipeline (ukSrc auSrc inSrc : Except String SourceDoc) (now : Nat) :
    Except String CombinedEpg :=
  match ukSrc with
  | Except.error e => Except.error e
  | Except.ok ukDoc =>
    match processSource ukDoc (some UK_KEYWORDS) now with
    | Except.error e => Except.error e
    | Except.ok (ukCh, ukPr) =>
      match auSrc with
      | Except.error e => Except.error e
      | Except.ok auDoc =>
        match processSource auDoc (some AU_KEYWORDS) now with
        | Except.error e => Except.error e
        | Except.ok (auCh, auPr) =>
          match inSrc with
          | Except.error e => Except.error e
          | Except.ok inDoc =>
            match processSource inDoc IN_KEYWORDS now with
            | Except.error e => Except.error e
            | Except.ok (inCh, inPr) =>
              Except.ok (create_combined_epg
                (combineChannels ukCh auCh (filter_in_channels inCh EXCLUDE_LANGUAGES))
                (ukPr ++ auPr ++ inPr.filter (fun p =>
                  dictMember (filter_in_channels inCh EXCLUDE_LANGUAGES) p.channel)))

/-- The retry loop of `fetch_epg` (lines 14-33): try attempts in order until
one succeeds or the budget runs out; returns (attempts performed, outcome).
`responses` is the oracle giving the result of each attempt (`none` = transport
failure / non-2xx raised by `raise_for_status`). -/
def fetchGo (responses : Nat → Option String) : Nat → Nat → Nat × Option String
  | _, 0 => (0, none)
  | attempt, n + 1 =>
    match responses attempt with
    | some content => (1, some content)
    | none =>
      match fetchGo responses (attempt + 1) n with
      | (cnt, r) => (cnt + 1, r)

/-- `fetch_epg` (lines 8-34): after the loop exhausts `max_retries` failed
attempts it raises (`Except.error`) rather than returning a sentinel. -/
def fetch_epg (url : String) (responses : Nat → Option String)
    (max_retries : Nat) : Except String String :=
  match (fetchGo responses 0 max_retries).2 with
  | some content => Except.ok content
  | none =>
    Except.error ("Failed to fetch " ++ url ++ " after "
      ++ toString max_retries ++ " attempts")

/-- Number of attempts `fetch_epg` actually performs. -/
def fetchAttempts (responses : Nat → Option String) (max_retries : Nat) : Nat :=
  (fetchGo responses 0 max_retries).1

/-- Modelled from the spec: the spec wording for the exclusion test in
section 4.4 — "the concatenation of its display names contains,
case-insensitively, any negative keyword as a substring". Stated only to
compare with the per-name test `channelExcluded` of the source. -/
def channelExcludedConcat (ch : Channel) (exclude_languages : List String) : Bool :=
  let concatNames := String.join ((displayTexts ch).map lowerStr)
  exclude_languages.any (fun lang => strContains concatNames (lowerStr lang))


/-- Looking a key up after a Python dict assignment. -/
theorem dictLookup_dictInsert (d : List (String × Channel)) (k k' : String) (v : Channel) :
    dictLookup (dictInsert d k v) k' = if k' = k then some v else dictLookup d k' := by
  induction d with
  | nil =>
    by_cases h : k' = k
    · subst h; simp [dictInsert, dictLookup]
    · have h' : ¬k = k' := fun hh => h hh.symm
      simp [dictInsert, dictLookup, h, h']
  | cons p rest ih =>
    by_cases hp : p.1 = k
    · by_cases hk : k' = k
      · subst hk; simp [dictInsert, dictLookup, hp]
      · have hk' : ¬k = k' := fun hh => hk hh.symm
        simp [dictInsert, dictLookup, hp, hk, hk']
    · by_cases hq : p.1 = k'
      · have hk : ¬k' = k := fun hh => hp (hq.trans hh)
        simp [dictInsert, dictLookup, hp, hq, hk]
      · simp [dictInsert, dictLookup, hp, hq, ih]

/-- Key membership is definedness of lookup. -/
theorem dictMember_eq_isSome (d : List (String × Channel)) (k : String) :
    dictMember d k = (dictLookup d k).isSome := by
  induction d with
  | nil => rfl
  | cons p rest ih =>
    by_cases h : p.1 = k <;> simp [dictMember, dictLookup, h, ih]

/-- Key membership as membership in the key list. -/
theorem dictMember_iff_mem_keys (d : List (String × Channel)) (k : String) :
    dictMember d k = true ↔ k ∈ d.map Prod.fst := by
  induction d with
  | nil => simp [dictMember]
  | cons p rest ih =>
    simp only [dictMember, List.map_cons, List.mem_cons, Bool.or_eq_true, beq_iff_eq, ih]
    constructor
    · rintro (rfl | h)
      · exact Or.inl rfl
      · exact Or.inr h
    · rintro (rfl | h)
      · exact Or.inl rfl
      · exact Or.inr h

/-- Key membership after a Python dict assignment. -/
theorem dictMember_dictInsert (d : List (String × Channel)) (k k' : String) (v : Channel) :
    dictMember (dictInsert d k v) k' = true ↔ k' = k ∨ dictMember d k' = true := by
  rw [dictMember_eq_isSome, dictMember_eq_isSome, dictLookup_dictInsert]
  by_cases h : k' = k <;> simp [h]

/-- Key membership in `{**a, **b}` is membership in either dict. -/
theorem dictMember_dictMerge (b a : List (String × Channel)) (k : String) :
    dictMember (dictMerge a b) k = true ↔
      dictMember a k = true ∨ dictMember b k = true := by
  induction b generalizing a with
  | nil => simp [dictMerge, dictMember]
  | cons p rest ih =>
    simp only [dictMerge, List.foldl_cons] at *
    rw [ih, dictMember_dictInsert]
    by_cases hk : p.1 = k
    · subst hk; simp [dictMember]
    · have hk' : ¬k = p.1 := fun hh => hk hh.symm
      simp [dictMember, hk, hk']

/-- Lookup in `{**a, **b}`: an entry of `b` wins when its key is present. -/
theorem dictLookup_dictMerge (b a : List (String × Channel)) (k : String)
    (hb : (b.map Prod.fst).Nodup) :
    dictLookup (dictMerge a b) k =
      if dictMember b k then dictLookup b k else dictLookup a k := by
  induction b generalizing a with
  | nil => simp [dictMerge, dictMember, dictLookup]
  | cons p rest ih =>
    simp only [List.map_cons, List.nodup_cons] at hb
    simp only [dictMerge, List.foldl_cons] at *
    rw [ih _ hb.2]
    by_cases hk : p.1 = k
    · subst hk
      have hrest : dictMember rest p.1 = false := by
        rw [Bool.eq_false_iff]
        intro hmem
        exact hb.1 ((dictMember_iff_mem_keys rest p.1).mp hmem)
      simp [hrest, dictMember, dictLookup, dictLookup_dictInsert]
    · have hk' : ¬k = p.1 := fun hh => hk hh.symm
      by_cases hm : dictMember rest k
      · simp [hm, dictMember, dictLookup, hk]
      · simp [hm, dictMember, dictLookup, hk, hk', dictLookup_dictInsert]


/-- Selecting over a concatenation processes the parts in order. -/
theorem selectAllAux_append (l₁ l₂ : List Channel) (acc : List (String × Channel)) :
    selectAllAux acc (l₁ ++ l₂) = selectAllAux (selectAllAux acc l₁) l₂ := by
  induction l₁ generalizing acc with
  | nil => rfl
  | cons c rest ih => simp [selectAllAux, ih]

/-- Selecting over a concatenation processes the parts in order. -/
theorem selectByKeywordsAux_append (ks : List String) (l₁ l₂ : List Channel)
    (acc : List (String × Channel)) :
    selectByKeywordsAux ks acc (l₁ ++ l₂) =
      selectByKeywordsAux ks (selectByKeywordsAux ks acc l₁) l₂ := by
  induction l₁ generalizing acc with
  | nil => rfl
  | cons c rest ih =>
    by_cases h : channelMatches c ks <;> simp [selectByKeywordsAux, h, ih]

/-- Channels with other ids do not disturb the binding of a key. -/
theorem dictLookup_selectAllAux_of_ne (doc : List Channel) (acc : List (String × Channel))
    (k : String) (h : ∀ c ∈ doc, c.id ≠ k) :
    dictLookup (selectAllAux acc doc) k = dictLookup acc k := by
  induction doc generalizing acc with
  | nil => rfl
  | cons c rest ih =>
    have hc : c.id ≠ k := h c (List.mem_cons_self c rest)
    have hk : ¬k = c.id := fun hh => hc hh.symm
    rw [show selectAllAux acc (c :: rest) = selectAllAux (dictInsert acc c.id c) rest from rfl,
      ih _ (fun x hx => h x (List.mem_cons_of_mem c hx)), dictLookup_dictInsert, if_neg hk]

/-- Channels with other ids do not disturb the binding of a key. -/
theorem dictLookup_selectByKeywordsAux_of_ne (ks : List String) (doc : List Channel)
    (acc : List (String × Channel)) (k : String) (h : ∀ c ∈ doc, c.id ≠ k) :
    dictLookup (selectByKeywordsAux ks acc doc) k = dictLookup acc k := by
  induction doc generalizing acc with
  | nil => rfl
  | cons c rest ih =>
    have hc : c.id ≠ k := h c (List.mem_cons_self c rest)
    have hk : ¬k = c.id := fun hh => hc hh.symm
    have htail := fun x hx => h x (List.mem_cons_of_mem c hx)
    by_cases hm : channelMatches c ks
    · rw [show selectByKeywordsAux ks acc (c :: rest)
          = if channelMatches c ks then selectByKeywordsAux ks (dictInsert acc c.id c) rest
            else selectByKeywordsAux ks acc rest from rfl,
        if_pos hm, ih _ htail, dictLookup_dictInsert, if_neg hk]
    · rw [show selectByKeywordsAux ks acc (c :: rest)
          = if channelMatches c ks then selectByKeywordsAux ks (dictInsert acc c.id c) rest
            else selectByKeywordsAux ks acc rest from rfl,
        if_neg hm, ih _ htail]

/-- Splitting a nodup-id document around a member channel. -/
theorem ids_ne_of_nodup_split (pre suf : List Channel) (c : Channel)
    (hnd : ((pre ++ c :: suf).map Channel.id).Nodup) :
    (∀ x ∈ pre, x.id ≠ c.id) ∧ (∀ x ∈ suf, x.id ≠ c.id) := by
  rw [List.map_append, List.map_cons, List.nodup_append] at hnd
  obtain ⟨-, hnd2, hdisj⟩ := hnd
  rw [List.nodup_cons] at hnd2
  refine ⟨fun x hx hh => ?_, fun x hx hh => ?_⟩
  · exact hdisj (hh ▸ List.mem_map_of_mem Channel.id hx) (List.mem_cons_self _ _)
  · exact hnd2.1 (hh ▸ List.mem_map_of_mem Channel.id hx)

/-- With distinct ids, keyword-free selection binds every channel to itself. -/
theorem dictLookup_selectChannels_none (doc : List Channel) (c : Channel)
    (hnd : (doc.map Channel.id).Nodup) (hc : c ∈ doc) :
    dictLookup (selectChannels doc none) c.id = some c := by
  obtain ⟨pre, suf, rfl⟩ := List.append_of_mem hc
  obtain ⟨hpre, hsuf⟩ := ids_ne_of_nodup_split pre suf c hnd
  show dictLookup (selectAllAux [] (pre ++ c :: suf)) c.id = some c
  rw [selectAllAux_append,
    show selectAllAux (selectAllAux [] pre) (c :: suf)
      = selectAllAux (dictInsert (selectAllAux [] pre) c.id c) suf from rfl,
    dictLookup_selectAllAux_of_ne _ _ _ hsuf, dictLookup_dictInsert, if_pos rfl]

/-- With distinct ids, keyword selection binds a channel to itself iff it
matches, and binds nothing to its id otherwise. -/
theorem dictLookup_selectChannels_some (doc : List Channel) (ks : List String) (c : Channel)
    (hnd : (doc.map Channel.id).Nodup) (hc : c ∈ doc) :
    dictLookup (selectChannels doc (some ks)) c.id =
      if channelMatches c ks then some c else none := by
  obtain ⟨pre, suf, rfl⟩ := List.append_of_mem hc
  obtain ⟨hpre, hsuf⟩ := ids_ne_of_nodup_split pre suf c hnd
  show dictLookup (selectByKeywordsAux ks [] (pre ++ c :: suf)) c.id = _
  rw [selectByKeywordsAux_append,
    show selectByKeywordsAux ks (selectByKeywordsAux ks [] pre) (c :: suf)
      = if channelMatches c ks then
          selectByKeywordsAux ks (dictInsert (selectByKeywordsAux ks [] pre) c.id c) suf
        else selectByKeywordsAux ks (selectByKeywordsAux ks [] pre) suf from rfl]
  by_cases hm : channelMatches c ks
  · rw [if_pos hm, if_pos hm, dictLookup_selectByKeywordsAux_of_ne _ _ _ _ hsuf,
      dictLookup_dictInsert, if_pos rfl]
  · rw [if_neg hm, if_neg hm, dictLookup_selectByKeywordsAux_of_ne _ _ _ _ hsuf,
      dictLookup_selectByKeywordsAux_of_ne _ _ _ _ hpre]
    rfl


/-- A successful `strptime` model needs at least 12 characters. -/
theorem parseStart12_length (s : String) (t : Nat) (h : parseStart12 s = some t) :
    12 ≤ s.length := by
  unfold parseStart12 at h
  by_cases hg : ((s.toList.take 12).length == 12 && (s.toList.take 12).all Char.isDigit) = true
  · have h12 : (s.toList.take 12).length = 12 := by
      have := (Bool.and_eq_true _ _).mp hg
      simpa using this.1
    rw [List.length_take] at h12
    have : s.toList.length = s.length := rfl
    omega
  · rw [if_neg hg] at h
    exact absurd h (by simp)

/-- Every programme the extractor keeps references a selected channel. -/
theorem extract_mem_member (chans : List (String × Channel)) (now : Nat)
    (ps res : List Programme) (h : extractProgrammes chans now ps = Except.ok res)
    (p : Programme) (hp : p ∈ res) : dictMember chans p.channel = true := by
  induction ps generalizing res with
  | nil =>
    unfold extractProgrammes at h
    cases h
    cases hp
  | cons q rest ih =>
    unfold extractProgrammes at h
    by_cases hm : dictMember chans q.channel
    · rw [if_pos hm] at h
      by_cases hl : 12 ≤ q.start.length
      · rw [if_pos hl] at h
        cases hps : parseStart12 q.start with
        | none => rw [hps] at h; cases h
        | some t =>
          rw [hps] at h
          cases hrest : extractProgrammes chans now rest with
          | error e => rw [hrest] at h; cases h
          | ok r =>
            rw [hrest] at h
            cases h
            by_cases hw : now ≤ t ∧ t ≤ now + 10080
            · rw [if_pos hw] at hp
              rcases List.mem_cons.mp hp with rfl | hpr
              · exact hm
              · exact ih r hrest hpr
            · rw [if_neg hw] at hp
              exact ih r hrest hp
      · rw [if_neg hl] at h
        cases hrest : extractProgrammes chans now rest with
        | error e => rw [hrest] at h; cases h
        | ok r =>
          rw [hrest] at h
          cases h
          rcases List.mem_cons.mp hp with rfl | hpr
          · exact hm
          · exact ih r hrest hpr
    · rw [if_neg hm] at h
      exact ih res h hp


/-- Claim C4: a programme whose start attribute parses (first 12
characters, `YYYYMMDDHHMM`, timezone suffix ignored) is retained by the
extractor iff its channel attribute is a selected key and its parsed start
lies in the window `[now, now + 7 days]` (the configured past grace is 0
and the future horizon 7 days = 10080 minutes). -/
theorem claim_C4 (chans : List (String × Channel)) (now : Nat)
    (ps res : List Programme) (p : Programme) (t : Nat)
    (h : extractProgrammes chans now ps = Except.ok res)
    (hpt : parseStart12 p.start = some t) :
    p ∈ res ↔ p ∈ ps ∧ dictMember chans p.channel = true ∧ now ≤ t ∧ t ≤ now + 10080 := by
  induction ps generalizing res with
  | nil =>
    unfold extractProgrammes at h
    cases h
    simp
  | cons q rest ih =>
    unfold extractProgrammes at h
    by_cases hm : dictMember chans q.channel
    · rw [if_pos hm] at h
      by_cases hl : 12 ≤ q.start.length
      · rw [if_pos hl] at h
        cases hps : parseStart12 q.start with
        | none => rw [hps] at h; cases h
        | some tq =>
          rw [hps] at h
          cases hrest : extractProgrammes chans now rest with
          | error e => rw [hrest] at h; cases h
          | ok r =>
            rw [hrest] at h
            cases h
            by_cases hpq : p = q
            · subst hpq
              have ht : tq = t := by rw [hpt] at hps; cases hps; rfl
              subst ht
              by_cases hw : now ≤ tq ∧ tq ≤ now + 10080
              · rw [if_pos hw]
                simp [hm, hw.1, hw.2]
              · rw [if_neg hw, ih r hrest]
                constructor
                · rintro ⟨-, -, hw1, hw2⟩
                  exact absurd ⟨hw1, hw2⟩ hw
                · rintro ⟨-, -, hw1, hw2⟩
                  exact absurd ⟨hw1, hw2⟩ hw
            · have hstep : p ∈ (if now ≤ tq ∧ tq ≤ now + 10080 then q :: r else r) ↔ p ∈ r := by
                split
                · simp [hpq]
                · exact Iff.rfl
              rw [hstep, ih r hrest]
              simp [List.mem_cons, hpq]
      · rw [if_neg hl] at h
        cases hrest : extractProgrammes chans now rest with
        | error e => rw [hrest] at h; cases h
        | ok r =>
          rw [hrest] at h
          cases h
          by_cases hpq : p = q
          · subst hpq
            exact absurd (parseStart12_length _ _ hpt) hl
          · have hstep : p ∈ q :: r ↔ p ∈ r := by simp [hpq]
            rw [hstep, ih r hrest]
            simp [List.mem_cons, hpq]
    · rw [if_neg hm] at h
      rw [ih res h]
      by_cases hpq : p = q
      · subst hpq
        simp [hm]
      · simp [List.mem_cons, hpq]

/-- Claim C5 (amended): a programme of a selected channel whose start
attribute is shorter than the minimum parseable length (12 characters) is
kept unconditionally; but (see the counterexample) a malformed start of
length at least 12 raises an error instead of being kept. -/
theorem claim_C5_amended (chans : List (String × Channel)) (now : Nat)
    (ps res : List Programme) (p : Programme)
    (h : extractProgrammes chans now ps = Except.ok res) (hp : p ∈ ps)
    (hm : dictMember chans p.channel = true) (hl : p.start.length < 12) :
    p ∈ res := by
  induction ps generalizing res with
  | nil => cases hp
  | cons q rest ih =>
    unfold extractProgrammes at h
    rcases List.mem_cons.mp hp with rfl | hpr
    · rw [if_pos hm, if_neg (by omega : ¬12 ≤ p.start.length)] at h
      cases hrest : extractProgrammes chans now rest with
      | error e => rw [hrest] at h; cases h
      | ok r =>
        rw [hrest] at h
        cases h
        exact List.mem_cons_self _ _
    · by_cases hqm : dictMember chans q.channel
      · rw [if_pos hqm] at h
        by_cases hql : 12 ≤ q.start.length
        · rw [if_pos hql] at h
          cases hps : parseStart12 q.start with
          | none => rw [hps] at h; cases h
          | some tq =>
            rw [hps] at h
            cases hrest : extractProgrammes chans now rest with
            | error e => rw [hrest] at h; cases h
            | ok r =>
              rw [hrest] at h
              cases h
              have hr := ih r hrest hpr
              split
              · exact List.mem_cons_of_mem _ hr
              · exact hr
        · rw [if_neg hql] at h
          cases hrest : extractProgrammes chans now rest with
          | error e => rw [hrest] at h; cases h
          | ok r =>
            rw [hrest] at h
            cases h
            exact List.mem_cons_of_mem _ (ih r hrest hpr)
      · rw [if_neg hqm] at h
        exact ih res h hpr


/-- A filter and its complement split the length of a list. -/
theorem filterSplit (d : List (String × Channel)) (f : (String × Channel) → Bool) :
    (d.filter (fun p => !f p)).length + (d.filter f).length = d.length := by
  induction d with
  | nil => rfl
  | cons p rest ih =>
    by_cases h : f p <;> simp [List.filter, h] <;> omega

/-- The keyword test unfolded to its existential reading. -/
theorem channelMatches_iff (c : Channel) (ks : List String) :
    channelMatches c ks = true ↔
      ∃ kw ∈ ks, ∃ name ∈ displayTexts c,
        strContains (lowerStr name) (lowerStr kw) = true := by
  simp [channelMatches, List.any_eq_true]

/-- Components of a successful per-source processing step. -/
theorem processSource_ok (doc : SourceDoc) (kws : Option (List String)) (now : Nat)
    (chs : List (String × Channel)) (prs : List Programme)
    (h : processSource doc kws now = Except.ok (chs, prs)) :
    chs = selectChannels doc.channels kws ∧
      extractProgrammes (selectChannels doc.channels kws) now doc.programmes
        = Except.ok prs := by
  unfold processSource at h
  cases he : extractProgrammes (selectChannels doc.channels kws) now doc.programmes with
  | error e => rw [he] at h; cases h
  | ok ps =>
    rw [he] at h
    cases h
    exact ⟨rfl, rfl⟩

/-- Claim C3: with distinct channel ids, a channel is selected (bound to
itself in the selection dict) unconditionally when the keyword list is
absent, and, when a keyword list is given, iff at least one of its display
names contains at least one keyword as a case-insensitive substring. -/
theorem claim_C3 (doc : List Channel) (ks : List String) (c : Channel)
    (hnd : (doc.map Channel.id).Nodup) (hc : c ∈ doc) :
    dictLookup (selectChannels doc none) c.id = some c ∧
    (dictLookup (selectChannels doc (some ks)) c.id = some c ↔
      ∃ kw ∈ ks, ∃ name ∈ displayTexts c,
        strContains (lowerStr name) (lowerStr kw) = true) := by
  refine ⟨dictLookup_selectChannels_none doc c hnd hc, ?_⟩
  rw [dictLookup_selectChannels_some doc ks c hnd hc, ← channelMatches_iff]
  by_cases hm : channelMatches c ks
  · simp [hm]
  · simp [hm]

/-- Witness for claim C3 at a concrete document and keyword list. -/
theorem claim_C3_witness :
    ([({ id := "1", displayNames := ["Sky Sports Main Event"] } : Channel)].map
      Channel.id).Nodup ∧
    ({ id := "1", displayNames := ["Sky Sports Main Event"] } : Channel) ∈
      [({ id := "1", displayNames := ["Sky Sports Main Event"] } : Channel)] ∧
    (dictLookup (selectChannels [{ id := "1", displayNames := ["Sky Sports Main Event"] }]
        none) "1" = some { id := "1", displayNames := ["Sky Sports Main Event"] } ∧
      (dictLookup (selectChannels [{ id := "1", displayNames := ["Sky Sports Main Event"] }]
          (some ["sky"])) "1"
          = some { id := "1", displayNames := ["Sky Sports Main Event"] } ↔
        ∃ kw ∈ ["sky"],
          ∃ name ∈ displayTexts { id := "1", displayNames := ["Sky Sports Main Event"] },
            strContains (lowerStr name) (lowerStr kw) = true)) :=
  ⟨by decide, by decide,
    claim_C3 [{ id := "1", displayNames := ["Sky Sports Main Event"] }] ["sky"]
      { id := "1", displayNames := ["Sky Sports Main Event"] } (by decide) (by decide)⟩

/-- Claim C6 counterexample: a channel whose concatenated display names
contain the negative keyword "tamil" (spec wording) is nevertheless kept by
`filter_in_channels`, because the code tests each display name separately. -/
theorem claim_C6_counterexample :
    channelExcludedConcat { id := "1", displayNames := ["ta", "mil"] } ["tamil"] = true ∧
    filter_in_channels [("1", { id := "1", displayNames := ["ta", "mil"] })] ["tamil"]
      = [("1", { id := "1", displayNames := ["ta", "mil"] })] :=
  ⟨by rfl, by rfl⟩

/-- Claim C6 (amended): the exclusion filter removes a channel iff at least
one of its display names, individually and case-insensitively, contains a
negative keyword as a substring; all other channels are kept, and the
reported removal count plus the kept count equals the input count. -/
theorem claim_C6_amended (d : List (String × Channel)) (langs : List String) :
    (∀ p : String × Channel,
      p ∈ filter_in_channels d langs ↔ p ∈ d ∧ channelExcluded p.2 langs = false) ∧
    (filter_in_channels d langs).length + excludedCount d langs = d.length := by
  constructor
  · intro p
    simp [filter_in_channels, List.mem_filter]
  · rw [filter_in_channels, excludedCount]
    exact filterSplit d (fun p => channelExcluded p.2 langs)

/-- Claim C7: in the pipeline channel combination of uk, au and filtered-in
a key maps to the entry of the latest source containing it. -/
theorem claim_C7 (uk au fin : List (String × Channel)) (k : String)
    (hau : (au.map Prod.fst).Nodup) (hfin : (fin.map Prod.fst).Nodup) :
    dictLookup (combineChannels uk au fin) k =
      if dictMember fin k then dictLookup fin k
      else if dictMember au k then dictLookup au k
      else dictLookup uk k := by
  rw [combineChannels, dictLookup_dictMerge fin _ k hfin, dictLookup_dictMerge au _ k hau]

/-- Witness for claim C7: source A contributes id "1" (Sky Sports Main
Event), later source B contributes id "1" (ESPN); the merged mapping has
"1" pointing to the channel of B. -/
theorem claim_C7_witness :
    (([("1", ({ id := "1", displayNames := ["ESPN"] } : Channel))].map Prod.fst).Nodup) ∧
    ((([] : List (String × Channel)).map Prod.fst).Nodup) ∧
    dictLookup (combineChannels
        [("1", { id := "1", displayNames := ["Sky Sports Main Event"] })]
        [("1", { id := "1", displayNames := ["ESPN"] })] []) "1"
      = some { id := "1", displayNames := ["ESPN"] } :=
  ⟨by decide, by decide,
    (claim_C7 [("1", { id := "1", displayNames := ["Sky Sports Main Event"] })]
      [("1", { id := "1", displayNames := ["ESPN"] })] [] "1"
      (by decide) (by decide)).trans (by rfl)⟩

/-- Claim C9: the exclusion filter is idempotent. -/
theorem claim_C9 (d : List (String × Channel)) (langs : List String) :
    filter_in_channels (filter_in_channels d langs) langs
      = filter_in_channels d langs := by
  simp [filter_in_channels, List.filter_filter]

/-- Claim C10: a channel with no non-empty display-name text is selected
when the keyword list is absent, but never selected for any given keyword
list, even one containing the empty string. -/
theorem claim_C10 (doc : List Channel) (ks : List String) (c : Channel)
    (hnd : (doc.map Channel.id).Nodup) (hc : c ∈ doc)
    (hdn : displayTexts c = []) :
    dictLookup (selectChannels doc none) c.id = some c ∧
    dictLookup (selectChannels doc (some ks)) c.id = none := by
  have hm : channelMatches c ks = false := by
    simp [channelMatches, hdn]
  refine ⟨dictLookup_selectChannels_none doc c hnd hc, ?_⟩
  rw [dictLookup_selectChannels_some doc ks c hnd hc]
  simp [hm]

/-- Witness for claim C10: a channel whose only display name has empty
text, against the keyword list containing just the empty string. -/
theorem claim_C10_witness :
    ([({ id := "e", displayNames := [""] } : Channel)].map Channel.id).Nodup ∧
    ({ id := "e", displayNames := [""] } : Channel) ∈
      [({ id := "e", displayNames := [""] } : Channel)] ∧
    displayTexts { id := "e", displayNames := [""] } = [] ∧
    (dictLookup (selectChannels [{ id := "e", displayNames := [""] }] none) "e"
        = some { id := "e", displayNames := [""] } ∧
      dictLookup (selectChannels [{ id := "e", displayNames := [""] }] (some [""])) "e"
        = none) :=
  ⟨by decide, by decide, by rfl,
    claim_C10 [{ id := "e", displayNames := [""] }] [""]
      { id := "e", displayNames := [""] } (by decide) (by decide) (by rfl)⟩


/-- Witness for claim C4: a programme one day after `now` is retained. -/
theorem claim_C4_witness :
    extractProgrammes [("c1", { id := "c1", displayNames := ["Sky"] })]
        (toMinutes 2024 1 5 0 0) [{ channel := "c1", start := "202401060000" }]
      = Except.ok [{ channel := "c1", start := "202401060000" }] ∧
    parseStart12 "202401060000" = some (toMinutes 2024 1 6 0 0) ∧
    (({ channel := "c1", start := "202401060000" } : Programme) ∈
        [({ channel := "c1", start := "202401060000" } : Programme)] ↔
      ({ channel := "c1", start := "202401060000" } : Programme) ∈
          [({ channel := "c1", start := "202401060000" } : Programme)] ∧
        dictMember [("c1", { id := "c1", displayNames := ["Sky"] })] "c1" = true ∧
        toMinutes 2024 1 5 0 0 ≤ toMinutes 2024 1 6 0 0 ∧
        toMinutes 2024 1 6 0 0 ≤ toMinutes 2024 1 5 0 0 + 10080) :=
  ⟨by rfl, by rfl,
    claim_C4 [("c1", { id := "c1", displayNames := ["Sky"] })] (toMinutes 2024 1 5 0 0)
      [{ channel := "c1", start := "202401060000" }]
      [{ channel := "c1", start := "202401060000" }]
      { channel := "c1", start := "202401060000" } (toMinutes 2024 1 6 0 0)
      (by rfl) (by rfl)⟩

/-- Claim C5 counterexample: a programme of a selected channel whose
12-character start attribute is malformed makes the extractor raise
(`strptime` `ValueError`), rather than being kept unconditionally. -/
theorem claim_C5_counterexample :
    extractProgrammes [("c1", { id := "c1", displayNames := [] })] 0
        [{ channel := "c1", start := "xxxxxxxxxxxx" }]
      = Except.error "time data does not match format" := by rfl

/-- Witness for claim C5 (amended): a 4-character start is kept. -/
theorem claim_C5_witness :
    extractProgrammes [("c1", { id := "c1", displayNames := [] })] 0
        [{ channel := "c1", start := "2024" }]
      = Except.ok [{ channel := "c1", start := "2024" }] ∧
    ({ channel := "c1", start := "2024" } : Programme) ∈
      [({ channel := "c1", start := "2024" } : Programme)] :=
  ⟨by rfl,
    claim_C5_amended [("c1", { id := "c1", displayNames := [] })] 0
      [{ channel := "c1", start := "2024" }] [{ channel := "c1", start := "2024" }]
      { channel := "c1", start := "2024" } (by rfl) (by decide) (by rfl) (by decide)⟩


/-- Claim C8: every programme of a successfully produced combined document
references a key of its combined channel mapping. -/
theorem claim_C8 (ukSrc auSrc inSrc : Except String SourceDoc) (now : Nat)
    (out : CombinedEpg)
    (h : runPipeline ukSrc auSrc inSrc now = Except.ok out) :
    ∀ p ∈ out.programmes, dictMember out.channels p.channel = true := by
  intro p hp
  unfold runPipeline at h
  cases ukSrc with
  | error e => cases h
  | ok ukDoc =>
  dsimp only at h
  cases hps1 : processSource ukDoc (some UK_KEYWORDS) now with
  | error e => rw [hps1] at h; cases h
  | ok ukRes =>
  obtain ⟨ukCh, ukPr⟩ := ukRes
  rw [hps1] at h
  dsimp only at h
  cases auSrc with
  | error e => cases h
  | ok auDoc =>
  dsimp only at h
  cases hps2 : processSource auDoc (some AU_KEYWORDS) now with
  | error e => rw [hps2] at h; cases h
  | ok auRes =>
  obtain ⟨auCh, auPr⟩ := auRes
  rw [hps2] at h
  dsimp only at h
  cases inSrc with
  | error e => cases h
  | ok inDoc =>
  dsimp only at h
  cases hps3 : processSource inDoc IN_KEYWORDS now with
  | error e => rw [hps3] at h; cases h
  | ok inRes =>
  obtain ⟨inCh, inPr⟩ := inRes
  rw [hps3] at h
  dsimp only at h
  injection h with h
  subst h
  simp only [create_combined_epg] at hp ⊢
  rw [combineChannels, dictMember_dictMerge, dictMember_dictMerge]
  rcases List.mem_append.mp hp with huk | hrest
  · rcases List.mem_append.mp huk with huk1 | hau
    · left; left
      obtain ⟨hch, he⟩ := processSource_ok _ _ _ _ _ hps1
      rw [hch]
      exact extract_mem_member _ _ _ _ he p huk1
    · left; right
      obtain ⟨hch, he⟩ := processSource_ok _ _ _ _ _ hps2
      rw [hch]
      exact extract_mem_member _ _ _ _ he p hau
  · right
    exact (List.mem_filter.mp hrest).2


/-- Witness for claim C8: a run with one retained UK programme. -/
theorem claim_C8_witness :
    runPipeline
        (Except.ok { channels := [{ id := "uk1", displayNames := ["Sky Sports Main Event"] }],
                     programmes := [{ channel := "uk1", start := "202401050000" }] })
        (Except.ok { channels := [], programmes := [] })
        (Except.ok { channels := [], programmes := [] })
        (toMinutes 2024 1 5 0 0)
      = Except.ok (create_combined_epg
          [("uk1", { id := "uk1", displayNames := ["Sky Sports Main Event"] })]
          [{ channel := "uk1", start := "202401050000" }]) ∧
    dictMember (create_combined_epg
        [("uk1", { id := "uk1", displayNames := ["Sky Sports Main Event"] })]
        [{ channel := "uk1", start := "202401050000" }]).channels "uk1" = true :=
  ⟨by rfl,
    claim_C8
      (Except.ok { channels := [{ id := "uk1", displayNames := ["Sky Sports Main Event"] }],
                   programmes := [{ channel := "uk1", start := "202401050000" }] })
      (Except.ok { channels := [], programmes := [] })
      (Except.ok { channels := [], programmes := [] })
      (toMinutes 2024 1 5 0 0)
      (create_combined_epg
        [("uk1", { id := "uk1", displayNames := ["Sky Sports Main Event"] })]
        [{ channel := "uk1", start := "202401050000" }])
      (by rfl) { channel := "uk1", start := "202401050000" } (by decide)⟩

/-- Claim C2 counterexample: a run in which every source succeeds but zero
programmes are collected still returns a combined document (which the sink
then writes); no `MergeError` exists in the code. -/
theorem claim_C2_counterexample :
    runPipeline (Except.ok { channels := [], programmes := [] })
        (Except.ok { channels := [], programmes := [] })
        (Except.ok { channels := [], programmes := [] }) 0
      = Except.ok (create_combined_epg [] []) ∧
    (create_combined_epg [] []).programmes = [] :=
  ⟨by rfl, by rfl⟩

/-- Claim C2 (amended): whenever every source is fetched, parsed and
extracted successfully and the collected programme sequence — UK plus AU
plus channel-re-filtered IN programmes — is empty, the merge step still
succeeds (no `MergeError` exists in the code) and the run writes a merged
document containing the combined channel mapping and zero programmes. -/
theorem claim_C2_amended (ukDoc auDoc inDoc : SourceDoc) (now : Nat)
    (ukCh auCh inCh : List (String × Channel)) (ukPr auPr inPr : List Programme)
    (h1 : processSource ukDoc (some UK_KEYWORDS) now = Except.ok (ukCh, ukPr))
    (h2 : processSource auDoc (some AU_KEYWORDS) now = Except.ok (auCh, auPr))
    (h3 : processSource inDoc IN_KEYWORDS now = Except.ok (inCh, inPr))
    (hempty : ukPr ++ auPr ++ inPr.filter (fun p =>
        dictMember (filter_in_channels inCh EXCLUDE_LANGUAGES) p.channel) = []) :
    ∃ out : CombinedEpg,
      runPipeline (Except.ok ukDoc) (Except.ok auDoc) (Except.ok inDoc) now
          = Except.ok out ∧
        out.channels = combineChannels ukCh auCh (filter_in_channels inCh EXCLUDE_LANGUAGES) ∧
        out.programmes = [] := by
  refine ⟨create_combined_epg
      (combineChannels ukCh auCh (filter_in_channels inCh EXCLUDE_LANGUAGES)) [],
    ?_, rfl, rfl⟩
  unfold runPipeline
  dsimp only
  rw [h1]
  dsimp only
  rw [h2]
  dsimp only
  rw [h3]
  dsimp only
  rw [hempty]

/-- Witness for claim C2 (amended): the IN source holds an in-window
programme whose only channel is language-excluded, so the collected
sequence is empty while the source documents are not. -/
theorem claim_C2_witness :
    processSource { channels := [], programmes := [] } (some UK_KEYWORDS)
        (toMinutes 2024 1 5 0 0) = Except.ok ([], []) ∧
    processSource { channels := [], programmes := [] } (some AU_KEYWORDS)
        (toMinutes 2024 1 5 0 0) = Except.ok ([], []) ∧
    processSource
        { channels := [{ id := "t1", displayNames := ["Tamil One"] }],
          programmes := [{ channel := "t1", start := "202401050000" }] }
        IN_KEYWORDS (toMinutes 2024 1 5 0 0)
      = Except.ok ([("t1", { id := "t1", displayNames := ["Tamil One"] })],
          [{ channel := "t1", start := "202401050000" }]) ∧
    ([] : List Programme) ++ ([] : List Programme) ++
        [({ channel := "t1", start := "202401050000" } : Programme)].filter (fun p =>
          dictMember (filter_in_channels
            [("t1", { id := "t1", displayNames := ["Tamil One"] })] EXCLUDE_LANGUAGES)
            p.channel) = [] ∧
    ∃ out : CombinedEpg,
      runPipeline (Except.ok { channels := [], programmes := [] })
          (Except.ok { channels := [], programmes := [] })
          (Except.ok { channels := [{ id := "t1", displayNames := ["Tamil One"] }],
                       programmes := [{ channel := "t1", start := "202401050000" }] })
          (toMinutes 2024 1 5 0 0)
        = Except.ok out ∧
      out.channels = combineChannels [] []
        (filter_in_channels [("t1", { id := "t1", displayNames := ["Tamil One"] })]
          EXCLUDE_LANGUAGES) ∧
      out.programmes = [] :=
  ⟨by rfl, by rfl, by rfl, by rfl,
    claim_C2_amended { channels := [], programmes := [] }
      { channels := [], programmes := [] }
      { channels := [{ id := "t1", displayNames := ["Tamil One"] }],
        programmes := [{ channel := "t1", start := "202401050000" }] }
      (toMinutes 2024 1 5 0 0) [] []
      [("t1", { id := "t1", displayNames := ["Tamil One"] })] [] []
      [{ channel := "t1", start := "202401050000" }]
      (by rfl) (by rfl) (by rfl) (by rfl)⟩

/-- Claim C1 counterexample: with every attempt failing, `fetch_epg`
raises (returns `Except.error`, the model of the raised exception), and the
pipeline run aborts with that error — producing no output — even though the
later AU source holds a valid programme; the remaining sources are not
processed. -/
theorem claim_C1_counterexample :
    fetch_epg "https://epg.pw/xmltv/epg_GB.xml.gz" (fun _ => none) 3
      = Except.error "Failed to fetch https://epg.pw/xmltv/epg_GB.xml.gz after 3 attempts" ∧
    runPipeline
        (Except.error "Failed to fetch https://epg.pw/xmltv/epg_GB.xml.gz after 3 attempts")
        (Except.ok { channels := [{ id := "au1", displayNames := ["Fox Sports"] }],
                     programmes := [{ channel := "au1", start := "202401050000" }] })
        (Except.ok { channels := [], programmes := [] }) 0
      = Except.error "Failed to fetch https://epg.pw/xmltv/epg_GB.xml.gz after 3 attempts" :=
  ⟨by rfl, by rfl⟩

/-- Claim C1 (amended): when all attempts for a URL fail, `fetch_epg`
performs exactly `max_retries` (3) attempts and then raises a terminal
fetch exception; the module-level handler catches it, logs it, and the run
aborts: the remaining sources contribute nothing and no artifact is
written. -/
theorem claim_C1_amended (url : String) (responses : Nat → Option String)
    (auSrc inSrc : Except String SourceDoc) (now : Nat)
    (h0 : responses 0 = none) (h1 : responses 1 = none) (h2 : responses 2 = none) :
    fetchAttempts responses 3 = 3 ∧
    fetch_epg url responses 3
      = Except.error ("Failed to fetch " ++ url ++ " after " ++ toString 3 ++ " attempts") ∧
    runPipeline
        (Except.error ("Failed to fetch " ++ url ++ " after " ++ toString 3 ++ " attempts"))
        auSrc inSrc now
      = Except.error ("Failed to fetch " ++ url ++ " after " ++ toString 3 ++ " attempts") := by
  have hgo : fetchGo responses 0 3 = (3, none) := by
    simp [fetchGo, h0, h1, h2]
  refine ⟨?_, ?_, rfl⟩
  · rw [fetchAttempts, hgo]
  · rw [fetch_epg, hgo]

/-- Witness for claim C1 (amended): the always-failing attempt oracle. -/
theorem claim_C1_witness :
    ((fun _ => (none : Option String)) 0 = none) ∧
    ((fun _ => (none : Option String)) 1 = none) ∧
    ((fun _ => (none : Option String)) 2 = none) ∧
    (fetchAttempts (fun _ => none) 3 = 3 ∧
      fetch_epg "u" (fun _ => none) 3
        = Except.error ("Failed to fetch " ++ "u" ++ " after " ++ toString 3 ++ " attempts") ∧
      runPipeline
          (Except.error ("Failed to fetch " ++ "u" ++ " after " ++ toString 3 ++ " attempts"))
          (Except.ok { channels := [], programmes := [] })
          (Except.ok { channels := [], programmes := [] }) 0
        = Except.error ("Failed to fetch " ++ "u" ++ " after " ++ toString 3 ++ " attempts")) :=
  ⟨rfl, rfl, rfl,
    claim_C1_amended "u" (fun _ => none)
      (Except.ok { channels := [], programmes := [] })
      (Except.ok { channels := [], programmes := [] }) 0 rfl rfl rfl⟩

end MyEpg
